import Mathlib

/-!
Verification of the availability-matching core of the MCP scheduling assistant.

The definitions below are a shallow embedding of
`src/tools/check_real_calendar.py` (the tiered matcher `check_real_calendar`
and its surrounding error handling) and `src/tools/check_calendar.py`
(`normalize_time_to_hour_boundary`).

Timestamps are Python `datetime` values produced by
`datetime.fromisoformat(time_str.replace('Z', '+00:00'))`, modelled at two
levels.  `fromisoformat` below mirrors CPython 3.11's C parser — calendar,
week-date and digits-only date forms, the shape-derived date/time separator,
fractional seconds, numeric offsets with seconds and fractions, naive
values — together with `isoformat` rendering and the `replace` calls around
them.  Inside the matching loop itself, parsed values are consumed only
through aware-datetime arithmetic, where a naive or non-canonical entry
raises (`TypeError` on aware/naive subtraction) and is caught by the same
per-item handler as a parse failure; the loop is therefore modelled with the
restricted parser `pyParse` over the repository's canonical aware format
(`YYYY-MM-DDTHH:MM:SS[.ffffff]` with `Z` or a `±HH:MM` offset), under which
a parse failure stands for either exception.

Python float arithmetic (`timedelta.total_seconds() / 3600`) is modelled
exactly over integer microseconds: for the sub-astronomical differences
arising here, distinct microsecond differences map to distinct doubles and
the comparisons with 1, 3 and 24 hours agree with the exact comparison.
-/

/-- Model of a Python aware `datetime` with a fixed offset, as produced by
`datetime.fromisoformat` on the inputs of this repository.  Components are
the local wall-clock fields plus the UTC offset in minutes. -/
structure PyDateTime where
  year : Nat
  month : Nat
  day : Nat
  hour : Nat
  minute : Nat
  second : Nat
  microsecond : Nat
  offsetMinutes : Int
deriving DecidableEq, Repr

/-- Gregorian leap-year test, as in Python's `calendar.isleap`. -/
def isLeapYear (y : Nat) : Bool :=
  (y % 4 == 0 && y % 100 != 0) || y % 400 == 0

/-- Number of days in a month of the proleptic Gregorian calendar. -/
def daysInMonth (y m : Nat) : Nat :=
  if m == 2 then (if isLeapYear y then 29 else 28)
  else if m == 4 || m == 6 || m == 9 || m == 11 then 30
  else 31

/-- Days from 1970-01-01 to year/month/day in the proleptic Gregorian
calendar (the days-from-civil algorithm, specialised to `y ≥ 1` so that all
intermediate arithmetic stays in `Nat`). -/
def daysFromCivil (y m d : Nat) : Int :=
  let y' := if m ≤ 2 then y - 1 else y
  let era := y' / 400
  let yoe := y' % 400
  let mp := (m + 9) % 12
  let doy := (153 * mp + 2) / 5 + (d - 1)
  let doe := yoe * 365 + yoe / 4 - yoe / 100 + doy
  (era * 146097 + doe : Int) - 719468

/-- The UTC instant of a `PyDateTime`, in microseconds since the Unix epoch.
Subtraction of two aware Python datetimes compares exactly these values. -/
def epochMicros (dt : PyDateTime) : Int :=
  (daysFromCivil dt.year dt.month dt.day * 86400
      + (dt.hour * 3600 + dt.minute * 60 + dt.second : Nat)
      - dt.offsetMinutes * 60) * 1000000 + dt.microsecond

/-- Value of a decimal digit character, if it is one. -/
def digitVal (c : Char) : Option Nat :=
  if c.isDigit then some (c.toNat - 48) else none

/-- Read exactly `n` decimal digits, extending the accumulator. -/
def readFixed : Nat → Nat → List Char → Option (Nat × List Char)
  | 0, acc, cs => some (acc, cs)
  | n + 1, acc, cs =>
    match cs with
    | [] => none
    | c :: rest =>
      match digitVal c with
      | none => none
      | some d => readFixed n (acc * 10 + d) rest

/-- Consume one expected character. -/
def expectChar (ch : Char) : List Char → Option (List Char)
  | [] => none
  | c :: rest => if c == ch then some rest else none

/-- Read a maximal run of decimal digits, returning their value and count. -/
def readDigitRun : List Char → Nat → Nat → Nat × Nat × List Char
  | [], acc, cnt => (acc, cnt, [])
  | c :: rest, acc, cnt =>
    match digitVal c with
    | none => (acc, cnt, c :: rest)
    | some d => readDigitRun rest (acc * 10 + d) (cnt + 1)

/-- Parse the optional fractional-seconds part: a dot followed by one to six
digits, scaled to microseconds. -/
def readFraction : List Char → Option (Nat × List Char)
  | '.' :: rest =>
    let r := readDigitRun rest 0 0
    if 1 ≤ r.2.1 && r.2.1 ≤ 6 then
      some (r.1 * 10 ^ (6 - r.2.1), r.2.2)
    else
      none
  | cs => some (0, cs)

/-- Parse the timezone designator: `Z` or a signed `HH:MM` offset. -/
def readOffset : List Char → Option (Int × List Char)
  | 'Z' :: rest => some (0, rest)
  | '+' :: rest =>
    match readFixed 2 0 rest with
    | none => none
    | some (hh, rest1) =>
      match expectChar ':' rest1 with
      | none => none
      | some rest2 =>
        match readFixed 2 0 rest2 with
        | none => none
        | some (mm, rest3) =>
          if hh ≤ 23 && mm ≤ 59 then some ((hh * 60 + mm : Nat), rest3) else none
  | '-' :: rest =>
    match readFixed 2 0 rest with
    | none => none
    | some (hh, rest1) =>
      match expectChar ':' rest1 with
      | none => none
      | some rest2 =>
        match readFixed 2 0 rest2 with
        | none => none
        | some (mm, rest3) =>
          if hh ≤ 23 && mm ≤ 59 then some (-((hh * 60 + mm : Nat) : Int), rest3) else none
  | _ => none

/-- Read a two-digit field preceded by the given separator character. -/
def readSep (ch : Char) (cs : List Char) : Option (Nat × List Char) :=
  match expectChar ch cs with
  | none => none
  | some cs1 => readFixed 2 0 cs1

/-- Parse the `YYYY-MM-DD` date part. -/
def readDate (cs : List Char) : Option (Nat × Nat × Nat × List Char) :=
  match readFixed 4 0 cs with
  | none => none
  | some (y, cs1) =>
    match readSep '-' cs1 with
    | none => none
    | some (mo, cs2) =>
      match readSep '-' cs2 with
      | none => none
      | some (d, cs3) => some (y, mo, d, cs3)

/-- Parse the `THH:MM:SS` time-of-day part. -/
def readTime (cs : List Char) : Option (Nat × Nat × Nat × List Char) :=
  match readSep 'T' cs with
  | none => none
  | some (h, cs1) =>
    match readSep ':' cs1 with
    | none => none
    | some (mi, cs2) =>
      match readSep ':' cs2 with
      | none => none
      | some (s, cs3) => some (h, mi, s, cs3)

/-- Parse the optional fraction and the offset, requiring end of input. -/
def readTail (cs : List Char) : Option (Nat × Int) :=
  match readFraction cs with
  | none => none
  | some (us, cs1) =>
    match readOffset cs1 with
    | none => none
    | some (off, cs2) => if cs2 = [] then some (us, off) else none

/-- Range validation performed by `datetime.fromisoformat`. -/
def fieldsValid (y mo d h mi s : Nat) : Bool :=
  1 ≤ y && y ≤ 9999 && 1 ≤ mo && mo ≤ 12 && 1 ≤ d
    && d ≤ daysInMonth y mo && h ≤ 23 && mi ≤ 59 && s ≤ 59

/-- Parser for the canonical ISO-8601 instants of this repository:
`YYYY-MM-DDTHH:MM:SS[.ffffff](Z|±HH:MM)`, with full range validation of the
date and time fields.  This is the matching loop's view of
`datetime.fromisoformat(time_str.replace('Z', '+00:00'))`: entries outside
this canonical aware form either fail to parse there or raise `TypeError`
when mixed with the aware interviewer datetimes, and both exceptions hit
the same per-item handler, so a `none` here stands for either event. -/
def pyParseChars (cs : List Char) : Option PyDateTime :=
  match readDate cs with
  | none => none
  | some (y, mo, d, cs1) =>
    match readTime cs1 with
    | none => none
    | some (h, mi, s, cs2) =>
      match readTail cs2 with
      | none => none
      | some (us, off) =>
        if fieldsValid y mo d h mi s then some ⟨y, mo, d, h, mi, s, us, off⟩
        else none

/-- String-level entry point of the parser model. -/
def pyParse (s : String) : Option PyDateTime :=
  pyParseChars s.data

/-- Decimal digit character. -/
def digitChar (n : Nat) : Char := Char.ofNat (48 + n)

/-- Fixed-width decimal rendering, `width` digits with leading zeros. -/
def padNum (width n : Nat) : List Char :=
  (List.range width).reverse.map (fun i => digitChar (n / 10 ^ i % 10))

/-- Same wall-clock calendar day, i.e. Python's
`candidate_dt.date() == interviewer_dt.date()`. -/
def sameDayB (c i : PyDateTime) : Bool :=
  c.year == i.year && c.month == i.month && c.day == i.day

/-- Absolute difference of the two instants in microseconds; Python's
`abs((candidate_dt - interviewer_dt).total_seconds()) / 3600` compared with
`1`, `3` and `24` corresponds exactly to comparing this value with
`3600000000`, `10800000000` and `86400000000`. -/
def diffMicros (c i : PyDateTime) : Nat :=
  (epochMicros c - epochMicros i).natAbs

/-- The proximity tiers of the smart matcher. -/
inductive Tier
  | tExact
  | tSameDay
  | tClose
deriving DecidableEq, Repr

/-- The classification chain of src/tools/check_real_calendar.py, lines
303-311: same day within one hour is EXACT; otherwise same day within three
hours is SAME DAY; otherwise within 24 hours is CLOSE; otherwise the pair is
discarded. -/
def classify (c i : PyDateTime) : Option Tier :=
  if sameDayB c i && diffMicros c i ≤ 3600000000 then some Tier.tExact
  else if sameDayB c i && diffMicros c i ≤ 10800000000 then some Tier.tSameDay
  else if diffMicros c i ≤ 86400000000 then some Tier.tClose
  else none

/-- The three accumulator lists `exact_matches`, `same_day_matches` and
`close_matches` of `check_real_calendar`; each entry pairs the interviewer
time string with the microsecond difference that stands for the stored
`time_diff_hours`. -/
structure MatchLists where
  exact_matches : List (String × Nat)
  same_day_matches : List (String × Nat)
  close_matches : List (String × Nat)
deriving DecidableEq, Repr

/-- The inner loop over `interviewer_times` for one parsed candidate time
(src/tools/check_real_calendar.py, lines 294-311).  A parse failure on an
interviewer entry raises inside the candidate's `try`, so it ends the loop
for this candidate while keeping the pairs already recorded. -/
def innerLoop (c : PyDateTime) : List String → MatchLists
  | [] => ⟨[], [], []⟩
  | s :: rest =>
    match pyParse s with
    | none => ⟨[], [], []⟩
    | some i =>
      let r := innerLoop c rest
      match classify c i with
      | some Tier.tExact =>
        ⟨(s, diffMicros c i) :: r.exact_matches, r.same_day_matches, r.close_matches⟩
      | some Tier.tSameDay =>
        ⟨r.exact_matches, (s, diffMicros c i) :: r.same_day_matches, r.close_matches⟩
      | some Tier.tClose =>
        ⟨r.exact_matches, r.same_day_matches, (s, diffMicros c i) :: r.close_matches⟩
      | none => r

/-- The outer loop over `candidate_times` (src/tools/check_real_calendar.py,
lines 289-315): an unparseable candidate is skipped by the per-candidate
`except`, and the pairs of the remaining candidates are accumulated in
discovery order. -/
def collectMatches : List String → List String → MatchLists
  | [], _ => ⟨[], [], []⟩
  | c :: rest, interviewer_times =>
    let tail := collectMatches rest interviewer_times
    match pyParse c with
    | none => tail
    | some cdt =>
      let h := innerLoop cdt interviewer_times
      ⟨h.exact_matches ++ tail.exact_matches,
        h.same_day_matches ++ tail.same_day_matches,
        h.close_matches ++ tail.close_matches⟩

/-- Python's stable `list.sort(key=lambda x: x[1])`, modelled by a stable
sort on the stored difference (the output of a stable sort is uniquely
determined, so any stable sorting algorithm is a faithful model). -/
def sortPairs (l : List (String × Nat)) : List (String × Nat) :=
  l.insertionSort (fun a b => a.2 ≤ b.2)

/-- The tier list selected by the `if exact_matches / elif same_day_matches /
elif close_matches` chain (src/tools/check_real_calendar.py, lines 320-334);
empty when every tier is empty and the unconditional fallback applies. -/
def chosenPairs (candidate_times interviewer_times : List String) :
    List (String × Nat) :=
  if (collectMatches candidate_times interviewer_times).exact_matches ≠ [] then
    (collectMatches candidate_times interviewer_times).exact_matches
  else if (collectMatches candidate_times interviewer_times).same_day_matches ≠ [] then
    (collectMatches candidate_times interviewer_times).same_day_matches
  else
    (collectMatches candidate_times interviewer_times).close_matches

/-- The priority selection of src/tools/check_real_calendar.py, lines
317-338: sort the highest nonempty tier by difference, keep the first three
interviewer strings; with no qualifying pair, fall back to the first three
interviewer slots in their given order. -/
def proposedTimesFrom (ml : MatchLists) (interviewer_times : List String) :
    List String :=
  if ml.exact_matches ≠ [] then
    ((sortPairs ml.exact_matches).take 3).map Prod.fst
  else if ml.same_day_matches ≠ [] then
    ((sortPairs ml.same_day_matches).take 3).map Prod.fst
  else if ml.close_matches ≠ [] then
    ((sortPairs ml.close_matches).take 3).map Prod.fst
  else
    interviewer_times.take 3

/-- The full proposal computation, including the final `proposed_times[:5]`
truncation applied at the construction of the result (line 349). -/
def proposedTimes (candidate_times interviewer_times : List String) :
    List String :=
  (proposedTimesFrom (collectMatches candidate_times interviewer_times)
    interviewer_times).take 5

/-- The `AvailableSlots` result model of src/protocol.py as populated by
`check_real_calendar` (src/tools/check_real_calendar.py, lines 345-350). -/
structure AvailableSlots where
  type : String
  candidate_times : List String
  interviewer_times : List String
  proposed_meeting_times : List String
deriving DecidableEq, Repr

/-- Embedding of the matching core of `check_real_calendar`
(src/tools/check_real_calendar.py, lines 284-350), parameterized over the
interviewer availability supplied by the calendar client. -/
def check_real_calendar (candidate_times interviewer_times : List String) :
    AvailableSlots :=
  { type := "available_slots"
    candidate_times := candidate_times
    interviewer_times := interviewer_times
    proposed_meeting_times := proposedTimes candidate_times interviewer_times }

/-! ### Generic facts about the stable sort on stored differences -/
/-- Aware-or-naive Python datetime as produced by `datetime.fromisoformat`:
wall-clock fields plus the UTC offset in microseconds, `none` when the
parsed string carries no timezone designator (a naive datetime). -/
structure PyDateTimeTz where
  year : Nat
  month : Nat
  day : Nat
  hour : Nat
  minute : Nat
  second : Nat
  microsecond : Nat
  offsetMicros : Option Int
deriving DecidableEq, Repr

/-- Python slice `cs[a:b]` on a character list (clamping, empty when the
range is empty or out of bounds). -/
def listSlice (cs : List Char) (a b : Nat) : List Char :=
  (cs.drop a).take (b - a)

/-- Value of a nonempty all-ASCII-digit character list; `none` otherwise
(the C parser of `fromisoformat` accepts plain digit runs only, none of the
`int()` quirks of the pure-Python fallback). -/
def digitsVal : List Char → Option Nat
  | [] => none
  | cs =>
    if cs.all Char.isDigit then
      some (cs.foldl (fun acc c => acc * 10 + (c.toNat - 48)) 0)
    else none

/-- Exactly `w` ASCII digits. -/
def fixedDigits (w : Nat) (cs : List Char) : Option Nat :=
  if cs.length = w then digitsVal cs else none

/-- Two leading ASCII digits of a character stream, with the rest. -/
def twoDigits : List Char → Option (Nat × List Char)
  | c1 :: c2 :: rest =>
    if c1.isDigit && c2.isDigit then
      some ((c1.toNat - 48) * 10 + (c2.toNat - 48), rest)
    else none
  | _ => none

/-- Index of the first occurrence of a character, as `str.find`. -/
def findIdx (c : Char) : List Char → Option Nat
  | [] => none
  | x :: rest =>
    if x == c then some 0
    else (findIdx c rest).map (· + 1)

/-- Model of `_find_isoformat_datetime_separator` (CPython 3.11): the
position at which the date portion of an isoformat string ends, computed
from the string's shape; `none` models the explicit `Invalid ISO string`
raise for the nine-character dash-week shape. -/
def findIsoSep (cs : List Char) : Option Nat :=
  let n := cs.length
  if n = 7 then some 7
  else if listSlice cs 4 5 = ['-'] then
    if listSlice cs 5 6 = ['W'] then
      if 8 < n ∧ listSlice cs 8 9 = ['-'] then
        if n = 9 then none
        else if 10 < n ∧ (listSlice cs 10 11).all Char.isDigit then some 8
        else some 10
      else some 8
    else some 10
  else
    if listSlice cs 4 5 = ['W'] then
      let idx := 7 + ((cs.drop 7).takeWhile Char.isDigit).length
      if idx < 9 then some idx
      else if idx % 2 = 0 then some 7 else some 8
    else some 8

/-- Days from 0000-03-01 to the given ordinal-day count, inverted: the
civil-from-days algorithm, mirroring `_ord2ymd` on ordinals shifted by
305 (all arithmetic in `Nat`; sound for every ordinal at least 1). -/
def civilFromDays (z : Nat) : Nat × Nat × Nat :=
  let era := z / 146097
  let doe := z % 146097
  let yoe := (doe - doe / 1460 + doe / 36524 - doe / 146096) / 365
  let y := yoe + era * 400
  let doy := doe - (365 * yoe + yoe / 4 - yoe / 100)
  let mp := (5 * doy + 2) / 153
  let d := doy - (153 * mp + 2) / 5 + 1
  let m := if mp < 10 then mp + 3 else mp - 9
  (if m ≤ 2 then y + 1 else y, m, d)

/-- Python `date.toordinal()`: day number with 0001-01-01 as day one. -/
def ymd2ord (y m d : Nat) : Nat :=
  (daysFromCivil y m d + 719163).toNat

/-- Python `date.fromordinal`, via the civil-from-days inverse. -/
def ord2ymd (n : Nat) : Nat × Nat × Nat :=
  civilFromDays (n + 305)

/-- Model of `_isoweek1monday`: ordinal of the Monday of ISO week one. -/
def isoweek1monday (y : Nat) : Nat :=
  let firstday := ymd2ord y 1 1
  let firstweekday := (firstday + 6) % 7
  firstday - firstweekday + (if 3 < firstweekday then 7 else 0)

/-- Model of `_isoweek_to_gregorian`: validates the ISO year, week (53 only
in long years) and weekday, then converts to a calendar date. -/
def isoweekToGregorian (y w dno : Nat) : Option (Nat × Nat × Nat) :=
  if ¬(1 ≤ y ∧ y ≤ 9999) then none
  else if ¬((1 ≤ w ∧ w ≤ 52) ∨
      (w = 53 ∧ (ymd2ord y 1 1 % 7 = 4 ∨ (ymd2ord y 1 1 % 7 = 3 ∧ isLeapYear y)))) then none
  else if ¬(1 ≤ dno ∧ dno ≤ 7) then none
  else some (ord2ymd (isoweek1monday y + (w - 1) * 7 + (dno - 1)))

/-- Model of `_parse_isoformat_date` (calendar and week dates, consistent
dash usage, exact-width digit fields as in the C implementation). -/
def parseIsoDate (cs : List Char) : Option (Nat × Nat × Nat) :=
  match fixedDigits 4 (listSlice cs 0 4) with
  | none => none
  | some y =>
    let hasSep := listSlice cs 4 5 = ['-']
    let pos := if hasSep then 5 else 4
    if listSlice cs pos (pos + 1) = ['W'] then
      match fixedDigits 2 (listSlice cs (pos + 1) (pos + 3)) with
      | none => none
      | some w =>
        let pos2 := pos + 3
        if pos2 < cs.length then
          if (listSlice cs pos2 (pos2 + 1) = ['-']) ≠ hasSep then none
          else
            let pos3 := if hasSep then pos2 + 1 else pos2
            match fixedDigits 1 (listSlice cs pos3 (pos3 + 1)) with
            | none => none
            | some dno => isoweekToGregorian y w dno
        else isoweekToGregorian y w 1
    else
      match fixedDigits 2 (listSlice cs pos (pos + 2)) with
      | none => none
      | some mo =>
        let pos2 := pos + 2
        if (listSlice cs pos2 (pos2 + 1) = ['-']) ≠ hasSep then none
        else
          let pos3 := if hasSep then pos2 + 1 else pos2
          match fixedDigits 2 (listSlice cs pos3 (pos3 + 2)) with
          | none => none
          | some d => some (y, mo, d)

/-- The fractional-second part of a time string after its decimal mark (or
after the final component in digits-only style): a nonempty run that must
consist of digits only; the first six digits, zero-padded on the right,
give the microseconds and further digits are checked and dropped. -/
def parseFracPart (cs : List Char) : Option Nat :=
  if cs ≠ [] ∧ cs.all Char.isDigit then
    (digitsVal (cs.take 6)).map (· * 10 ^ (6 - (cs.take 6).length))
  else none

/-- Model of the C `parse_hh_mm_ss_ff` of CPython 3.11: up to three
two-digit components, colon-separated or digits-only as decided by the
character after the hour, with a fractional part after any component
introduced by a dot or comma (or, after the seconds, by a colon in
colon-separated style, or by nothing in digits-only style).  When the
string is cut off by a timezone designator (`boundary` true) one trailing
character before the designator is consumed without effect; at the true
end of the input such a leftover is an error. -/
def parseHMS (boundary : Bool) (cs : List Char) : Option (Nat × Nat × Nat × Nat) :=
  match twoDigits cs with
  | none => none
  | some (h, r0) =>
    match r0 with
    | [] => some (h, 0, 0, 0)
    | [_] => if boundary then some (h, 0, 0, 0) else none
    | c :: r1 =>
      if c == '.' || c == ',' then
        (parseFracPart r1).map (fun us => (h, 0, 0, us))
      else
        let hasSep := c == ':'
        match twoDigits (if hasSep then r1 else c :: r1) with
        | none => none
        | some (mi, r2) =>
          match r2 with
          | [] => some (h, mi, 0, 0)
          | [_] => if boundary then some (h, mi, 0, 0) else none
          | c2 :: r3 =>
            if c2 == '.' || c2 == ',' then
              (parseFracPart r3).map (fun us => (h, mi, 0, us))
            else if (c2 == ':') ≠ hasSep then none
            else
              match twoDigits (if hasSep then r3 else c2 :: r3) with
              | none => none
              | some (s, r4) =>
                match r4 with
                | [] => some (h, mi, s, 0)
                | [_] => if boundary then some (h, mi, s, 0) else none
                | c3 :: r5 =>
                  if c3 == '.' || c3 == ',' then
                    (parseFracPart r5).map (fun us => (h, mi, s, us))
                  else if hasSep then
                    if c3 == ':' then (parseFracPart r5).map (fun us => (h, mi, s, us))
                    else none
                  else
                    (parseFracPart (c3 :: r5)).map (fun us => (h, mi, s, us))

/-- Index of the first timezone designator (`-`, `+` or `Z`) in a time
string, as scanned by the C `parse_isoformat_time`. -/
def firstTzIdx : List Char → Option Nat
  | [] => none
  | c :: rest =>
    if c == '-' || c == '+' || c == 'Z' then some 0
    else (firstTzIdx rest).map (· + 1)

/-- Model of the C `parse_isoformat_time`: the portion before the first
timezone designator is the wall-clock time; a `Z` designator must be
final; a numeric offset is parsed with the same component parser, counts
as UTC when its hour, minute and second are all zero (its fraction is
then discarded), and must otherwise be strictly within 24 hours. -/
def parseIsoTime (cs : List Char) : Option ((Nat × Nat × Nat × Nat) × Option Int) :=
  if cs.length < 2 then none
  else
    match firstTzIdx cs with
    | none => (parseHMS false cs).map (fun t => (t, none))
    | some i =>
      match parseHMS true (cs.take i) with
      | none => none
      | some t =>
        if listSlice cs i (i + 1) = ['Z'] then
          if i + 1 = cs.length then some (t, some 0) else none
        else
          match parseHMS false (cs.drop (i + 1)) with
          | none => none
          | some (th, tm, ts, tus) =>
            if th = 0 ∧ tm = 0 ∧ ts = 0 then some (t, some 0)
            else
              let mag : Int := ((th * 3600 + tm * 60 + ts) * 1000000 + tus : Nat)
              if mag < 86400000000 then
                some (t, some (if listSlice cs i (i + 1) = ['-'] then -mag else mag))
              else none

/-- Model of CPython 3.11 `datetime.fromisoformat` on the character list:
split date and time at the shape-derived separator position (the separator
character itself is never inspected), parse both parts, and apply the
`datetime` constructor's range validation. -/
def fromisoformatChars (cs : List Char) : Option PyDateTimeTz :=
  if cs.length < 7 then none
  else
    match findIsoSep cs with
    | none => none
    | some sep =>
      match parseIsoDate (cs.take sep) with
      | none => none
      | some (y, mo, d) =>
        match (if cs.length ≤ sep then some ((0, 0, 0, 0), (none : Option Int))
               else parseIsoTime (cs.drop (sep + 1))) with
        | none => none
        | some ((h, mi, s, us), off) =>
          if 1 ≤ y ∧ y ≤ 9999 ∧ 1 ≤ mo ∧ mo ≤ 12 ∧ 1 ≤ d ∧ d ≤ daysInMonth y mo
              ∧ h ≤ 23 ∧ mi ≤ 59 ∧ s ≤ 59 ∧ us ≤ 999999 then
            some ⟨y, mo, d, h, mi, s, us, off⟩
          else none

/-- Model of `datetime.fromisoformat` on strings. -/
def fromisoformat (s : String) : Option PyDateTimeTz :=
  fromisoformatChars s.data

/-- Model of `time_str.replace('Z', '+00:00')`, applied by the source
before every `fromisoformat` call. -/
def pyReplaceZ (s : String) : String :=
  String.mk (s.data.flatMap (fun c => if c == 'Z' then ['+', '0', '0', ':', '0', '0'] else [c]))

/-- Model of `datetime.isoformat()`: date, `T`, time with seconds always
present, fractional seconds exactly when the microsecond field is nonzero,
and for aware values the offset as `±HH:MM[:SS[.ffffff]]` (seconds shown
when the offset is not a whole number of minutes). -/
def pyIsoformat (dt : PyDateTimeTz) : String :=
  String.mk
    (padNum 4 dt.year ++ '-' :: padNum 2 dt.month ++ '-' :: padNum 2 dt.day
      ++ 'T' :: padNum 2 dt.hour ++ ':' :: padNum 2 dt.minute
      ++ ':' :: padNum 2 dt.second
      ++ (if dt.microsecond ≠ 0 then '.' :: padNum 6 dt.microsecond else [])
      ++ (match dt.offsetMicros with
          | none => []
          | some off =>
            let a := off.natAbs
            let hh := a / 3600000000
            let mm := a % 3600000000 / 60000000
            let ss := a % 60000000 / 1000000
            let us := a % 1000000
            (if off < 0 then '-' else '+') :: padNum 2 hh ++ ':' :: padNum 2 mm
              ++ (if ss ≠ 0 ∨ us ≠ 0 then ':' :: padNum 2 ss else [])
              ++ (if us ≠ 0 then '.' :: padNum 6 us else [])))

/-- One step bound for the textual replacement below. -/
def replacePlusZeroAux : Nat → List Char → List Char
  | 0, cs => cs
  | _ + 1, [] => []
  | fuel + 1, c :: rest =>
    if (c :: rest).take 6 = ['+', '0', '0', ':', '0', '0'] then
      'Z' :: replacePlusZeroAux fuel ((c :: rest).drop 6)
    else
      c :: replacePlusZeroAux fuel rest

/-- Model of `str.replace('+00:00', 'Z')`: left-to-right non-overlapping
replacement of every occurrence. -/
def replacePlusZero (s : String) : String :=
  String.mk (replacePlusZeroAux s.data.length s.data)

/-- Model of `dt.isoformat().replace('+00:00', 'Z')` as returned by
`normalize_time_to_hour_boundary`. -/
def pyIsoformatZ (dt : PyDateTimeTz) : String :=
  replacePlusZero (pyIsoformat dt)

/-- Model of `dt.replace(minute=0, second=0, microsecond=0)`. -/
def truncTz (dt : PyDateTimeTz) : PyDateTimeTz :=
  { dt with minute := 0, second := 0, microsecond := 0 }

/-- Model of `dt + timedelta(hours=1)` on a value below `datetime.max`:
wall-clock addition with day, month and year rollover, the offset
unchanged.  At 9999-12-31T23:00 Python instead raises `OverflowError`;
`normalize_time_to_hour_boundary` only applies this addition under the
guard that excludes that case. -/
def addOneHourTz (dt : PyDateTimeTz) : PyDateTimeTz :=
  if dt.hour + 1 ≤ 23 then { dt with hour := dt.hour + 1 }
  else if dt.day + 1 ≤ daysInMonth dt.year dt.month then
    { dt with hour := 0, day := dt.day + 1 }
  else if dt.month + 1 ≤ 12 then
    { dt with hour := 0, day := 1, month := dt.month + 1 }
  else
    { dt with hour := 0, day := 1, month := 1, year := dt.year + 1 }

/-- The rounding step of `normalize_time_to_hour_boundary`
(src/tools/check_calendar.py, lines 31-34) on an input it does not
overflow on: truncate to the hour, adding one hour at or past minute 30. -/
def roundToNearestHourTz (dt : PyDateTimeTz) : PyDateTimeTz :=
  if 30 ≤ dt.minute then addOneHourTz (truncTz dt) else truncTz dt

/-- The input lies in the last half hour of Python's datetime range, where
`replace(minute=0, ...) + timedelta(hours=1)` raises `OverflowError`. -/
def rolloverOverflows (dt : PyDateTimeTz) : Bool :=
  dt.year == 9999 && dt.month == 12 && dt.day == 31 && dt.hour == 23

/-- Embedding of `normalize_time_to_hour_boundary`
(src/tools/check_calendar.py, lines 18-38): replace `Z`, parse, round to
the nearest hour and re-serialize; on a parse failure, or on the
`OverflowError` raised when rounding up past 9999-12-31T23:59:59.999999,
the `except` branch returns the input string unchanged. -/
def normalize_time_to_hour_boundary (time_str : String) : String :=
  match fromisoformat (pyReplaceZ time_str) with
  | none => time_str
  | some dt =>
    if 30 ≤ dt.minute then
      if rolloverOverflows dt then time_str
      else pyIsoformatZ (addOneHourTz (truncTz dt))
    else pyIsoformatZ (truncTz dt)

/-- Python `date.weekday()`: 0 for Monday through 6 for Sunday. -/
def pyWeekday (y m d : Nat) : Nat :=
  (ymd2ord y m d + 6) % 7

/-- Model of `dt + timedelta(days=dd, hours=hh)` on a naive datetime:
exact calendar arithmetic via the ordinal-day representation.  Sound while
the result stays within Python's datetime range (the basic-fallback clock
values of this module), where Python would otherwise raise. -/
def addDaysHours (dt : PyDateTimeTz) (dd hh : Nat) : PyDateTimeTz :=
  let secs := dt.hour * 3600 + dt.minute * 60 + dt.second + hh * 3600
  let ymd := ord2ymd (ymd2ord dt.year dt.month dt.day + dd + secs / 86400)
  let rem := secs % 86400
  { dt with year := ymd.1, month := ymd.2.1, day := ymd.2.2,
            hour := rem / 3600, minute := rem % 3600 / 60, second := rem % 60 }

/-- The basic-fallback times of the function-level `except` branch
(src/tools/check_real_calendar.py, lines 356-362): for the next five days,
the clock reading plus `timedelta(days=i+1, hours=10)`, kept when it falls
on a weekday and serialized as `isoformat() + 'Z'`. -/
def mockTimes (now : PyDateTimeTz) : List String :=
  (List.range 5).filterMap (fun i =>
    let f := addDaysHours now (i + 1) 10
    if pyWeekday f.year f.month f.day < 5 then some (pyIsoformat f ++ "Z")
    else none)

/-- The unguarded display loops of `check_real_calendar`
(src/tools/check_real_calendar.py, lines 274-282): every candidate entry
and each of the first five interviewer entries is parsed with
`fromisoformat` outside any per-item guard, so a single failure raises to
the function-level `except`. -/
def displayLoopsSucceed (candidate_times interviewer_times : List String) : Bool :=
  candidate_times.all (fun c => (fromisoformat (pyReplaceZ c)).isSome)
    && (interviewer_times.take 5).all (fun s => (fromisoformat (pyReplaceZ s)).isSome)

/-- Embedding of the whole `check_real_calendar` body
(src/tools/check_real_calendar.py, lines 263-369), parameterized over the
interviewer availability supplied by the calendar client and over the
`datetime.now()` reading of the fallback branch (modelled as a naive
clock value well below datetime.max).  If any display-loop parse raises,
the function-level `except` returns the clock-derived mock times as both
the interviewer sequence and (their first three) the proposal; otherwise
the matching core runs.  Candidate entries the display loop parses but the
matching core's canonical-format parser does not (naive forms, exotic
aware spellings) behave in the core as per-candidate drops, matching the
`TypeError` raised on aware/naive arithmetic there. -/
def check_real_calendar_full (now : PyDateTimeTz)
    (candidate_times interviewer_times : List String) : AvailableSlots :=
  if displayLoopsSucceed candidate_times interviewer_times then
    check_real_calendar candidate_times interviewer_times
  else
    { type := "available_slots"
      candidate_times := candidate_times
      interviewer_times := mockTimes now
      proposed_meeting_times := (mockTimes now).take 3 }
open List

instance : IsTotal (String × Nat) (fun a b => a.2 ≤ b.2) :=
  ⟨fun a b => Nat.le_total a.2 b.2⟩

instance : IsTrans (String × Nat) (fun a b => a.2 ≤ b.2) :=
  ⟨fun _ _ _ => Nat.le_trans⟩

theorem sortPairs_perm (l : List (String × Nat)) : sortPairs l ~ l :=
  List.perm_insertionSort _ l

theorem sortPairs_sorted (l : List (String × Nat)) :
    (sortPairs l).Pairwise (fun a b => a.2 ≤ b.2) :=
  List.sorted_insertionSort _ l

theorem sortPairs_filter_key (l : List (String × Nat)) (d : Nat) :
    (sortPairs l).filter (fun p => p.2 == d) = l.filter (fun p => p.2 == d) := by
  have hpair : (l.filter (fun p => p.2 == d)).Pairwise
      (fun a b : String × Nat => a.2 ≤ b.2) := by
    apply List.pairwise_of_forall_mem_list
    intro a ha b hb
    have ha2 : a.2 = d := by simpa using (List.mem_filter.1 ha).2
    have hb2 : b.2 = d := by simpa using (List.mem_filter.1 hb).2
    omega
  have hsub : l.filter (fun p => p.2 == d) <+ sortPairs l :=
    List.sublist_insertionSort hpair (List.filter_sublist l)
  have h1 := hsub.filter (fun p => p.2 == d)
  rw [List.filter_filter] at h1
  simp only [Bool.and_self] at h1
  have hlen : (l.filter (fun p => p.2 == d)).length
      = ((sortPairs l).filter (fun p => p.2 == d)).length :=
    (((sortPairs_perm l).filter _).length_eq).symm
  exact (h1.eq_of_length hlen).symm

theorem mem_sort_take_map {l : List (String × Nat)} {t : String}
    (h : t ∈ ((sortPairs l).take 3).map Prod.fst) : ∃ d, (t, d) ∈ l := by
  obtain ⟨p, hp, hpt⟩ := List.mem_map.1 h
  have hmem : p ∈ l := (sortPairs_perm l).subset (List.take_subset _ _ hp)
  exact ⟨p.2, by rw [← hpt]; exact hmem⟩

/-! ### Structure of the accumulated match lists -/

theorem innerLoop_fst_sublist (c : PyDateTime) (ivs : List String) :
    (innerLoop c ivs).exact_matches.map Prod.fst <+ ivs
  ∧ (innerLoop c ivs).same_day_matches.map Prod.fst <+ ivs
  ∧ (innerLoop c ivs).close_matches.map Prod.fst <+ ivs := by
  induction ivs with
  | nil => simp [innerLoop]
  | cons s rest ih =>
    obtain ⟨ih1, ih2, ih3⟩ := ih
    cases hp : pyParse s with
    | none => simp [innerLoop, hp]
    | some i =>
      cases hc : classify c i with
      | none =>
        simpa [innerLoop, hp, hc] using ⟨ih1.cons s, ih2.cons s, ih3.cons s⟩
      | some tier =>
        cases tier with
        | tExact =>
          simpa [innerLoop, hp, hc] using ⟨ih1, ih2.cons s, ih3.cons s⟩
        | tSameDay =>
          simpa [innerLoop, hp, hc] using ⟨ih1.cons s, ih2, ih3.cons s⟩
        | tClose =>
          simpa [innerLoop, hp, hc] using ⟨ih1.cons s, ih2.cons s, ih3⟩

theorem collectMatches_fst_mem (cands ivs : List String) :
    (∀ p ∈ (collectMatches cands ivs).exact_matches, p.1 ∈ ivs)
  ∧ (∀ p ∈ (collectMatches cands ivs).same_day_matches, p.1 ∈ ivs)
  ∧ (∀ p ∈ (collectMatches cands ivs).close_matches, p.1 ∈ ivs) := by
  induction cands with
  | nil => simp [collectMatches]
  | cons c rest ih =>
    obtain ⟨ih1, ih2, ih3⟩ := ih
    cases hp : pyParse c with
    | none =>
      simp only [collectMatches, hp]
      exact ⟨ih1, ih2, ih3⟩
    | some cdt =>
      obtain ⟨h1, h2, h3⟩ := innerLoop_fst_sublist cdt ivs
      simp only [collectMatches, hp]
      refine ⟨?_, ?_, ?_⟩ <;> intro p hp2
      · rcases List.mem_append.1 hp2 with h | h
        · exact h1.subset (List.mem_map_of_mem Prod.fst h)
        · exact ih1 p h
      · rcases List.mem_append.1 hp2 with h | h
        · exact h2.subset (List.mem_map_of_mem Prod.fst h)
        · exact ih2 p h
      · rcases List.mem_append.1 hp2 with h | h
        · exact h3.subset (List.mem_map_of_mem Prod.fst h)
        · exact ih3 p h

theorem collectMatches_nil_right (cands : List String) :
    collectMatches cands [] = ⟨[], [], []⟩ := by
  induction cands with
  | nil => rfl
  | cons c rest ih =>
    cases hp : pyParse c with
    | none => simp [collectMatches, hp, ih]
    | some cdt => simp [collectMatches, innerLoop, hp, ih]

theorem collectMatches_filter_parseable (cands ivs : List String) :
    collectMatches (cands.filter fun c => (pyParse c).isSome) ivs
      = collectMatches cands ivs := by
  induction cands with
  | nil => rfl
  | cons c rest ih =>
    cases hp : pyParse c with
    | none => simp [List.filter_cons, collectMatches, hp, ih]
    | some cdt => simp [List.filter_cons, collectMatches, hp, ih]

/-! ### Shape of the proposal in each selection case -/

theorem proposedTimes_exact (cands ivs : List String)
    (h : (collectMatches cands ivs).exact_matches ≠ []) :
    proposedTimes cands ivs
      = ((sortPairs (collectMatches cands ivs).exact_matches).take 3).map Prod.fst := by
  unfold proposedTimes proposedTimesFrom
  rw [if_pos h]
  apply List.take_of_length_le
  simp only [List.length_map, List.length_take]
  omega

theorem proposedTimes_same_day (cands ivs : List String)
    (h1 : (collectMatches cands ivs).exact_matches = [])
    (h2 : (collectMatches cands ivs).same_day_matches ≠ []) :
    proposedTimes cands ivs
      = ((sortPairs (collectMatches cands ivs).same_day_matches).take 3).map Prod.fst := by
  unfold proposedTimes proposedTimesFrom
  rw [if_neg (by simp [h1]), if_pos h2]
  apply List.take_of_length_le
  simp only [List.length_map, List.length_take]
  omega

theorem proposedTimes_close (cands ivs : List String)
    (h1 : (collectMatches cands ivs).exact_matches = [])
    (h2 : (collectMatches cands ivs).same_day_matches = [])
    (h3 : (collectMatches cands ivs).close_matches ≠ []) :
    proposedTimes cands ivs
      = ((sortPairs (collectMatches cands ivs).close_matches).take 3).map Prod.fst := by
  unfold proposedTimes proposedTimesFrom
  rw [if_neg (by simp [h1]), if_neg (by simp [h2]), if_pos h3]
  apply List.take_of_length_le
  simp only [List.length_map, List.length_take]
  omega

theorem proposedTimes_fallback (cands ivs : List String)
    (h1 : (collectMatches cands ivs).exact_matches = [])
    (h2 : (collectMatches cands ivs).same_day_matches = [])
    (h3 : (collectMatches cands ivs).close_matches = []) :
    proposedTimes cands ivs = ivs.take 3 := by
  unfold proposedTimes proposedTimesFrom
  rw [if_neg (by simp [h1]), if_neg (by simp [h2]), if_neg (by simp [h3]),
    List.take_take]
  rfl

/-- C1: tier precedence is global: every proposed time originates in the
highest nonempty tier (EXACT, else SAME_DAY, else CLOSE), and with no
qualifying pair in any tier the proposal is the first three interviewer
slots in their given order. -/
theorem tier_precedence_global (cands ivs : List String) (t : String)
    (ht : t ∈ proposedTimes cands ivs) :
    ((collectMatches cands ivs).exact_matches ≠ [] →
      ∃ d, (t, d) ∈ (collectMatches cands ivs).exact_matches)
  ∧ ((collectMatches cands ivs).exact_matches = [] →
      (collectMatches cands ivs).same_day_matches ≠ [] →
      ∃ d, (t, d) ∈ (collectMatches cands ivs).same_day_matches)
  ∧ ((collectMatches cands ivs).exact_matches = [] →
      (collectMatches cands ivs).same_day_matches = [] →
      (collectMatches cands ivs).close_matches ≠ [] →
      ∃ d, (t, d) ∈ (collectMatches cands ivs).close_matches)
  ∧ ((collectMatches cands ivs).exact_matches = [] →
      (collectMatches cands ivs).same_day_matches = [] →
      (collectMatches cands ivs).close_matches = [] →
      proposedTimes cands ivs = ivs.take 3) := by
  refine ⟨fun h1 => ?_, fun h1 h2 => ?_, fun h1 h2 h3 => ?_, fun h1 h2 h3 => ?_⟩
  · rw [proposedTimes_exact cands ivs h1] at ht
    exact mem_sort_take_map ht
  · rw [proposedTimes_same_day cands ivs h1 h2] at ht
    exact mem_sort_take_map ht
  · rw [proposedTimes_close cands ivs h1 h2 h3] at ht
    exact mem_sort_take_map ht
  · exact proposedTimes_fallback cands ivs h1 h2 h3

/-- Witness for `tier_precedence_global` at the spec §8 EXACT example. -/
theorem tier_precedence_global_witness :
    "2025-07-15T14:00:00Z" ∈ proposedTimes ["2025-07-15T14:00:00Z"]
        ["2025-07-15T14:00:00Z", "2025-07-17T09:00:00Z"]
  ∧ (((collectMatches ["2025-07-15T14:00:00Z"]
          ["2025-07-15T14:00:00Z", "2025-07-17T09:00:00Z"]).exact_matches ≠ [] →
        ∃ d, ("2025-07-15T14:00:00Z", d) ∈ (collectMatches ["2025-07-15T14:00:00Z"]
          ["2025-07-15T14:00:00Z", "2025-07-17T09:00:00Z"]).exact_matches)
    ∧ ((collectMatches ["2025-07-15T14:00:00Z"]
          ["2025-07-15T14:00:00Z", "2025-07-17T09:00:00Z"]).exact_matches = [] →
        (collectMatches ["2025-07-15T14:00:00Z"]
          ["2025-07-15T14:00:00Z", "2025-07-17T09:00:00Z"]).same_day_matches ≠ [] →
        ∃ d, ("2025-07-15T14:00:00Z", d) ∈ (collectMatches ["2025-07-15T14:00:00Z"]
          ["2025-07-15T14:00:00Z", "2025-07-17T09:00:00Z"]).same_day_matches)
    ∧ ((collectMatches ["2025-07-15T14:00:00Z"]
          ["2025-07-15T14:00:00Z", "2025-07-17T09:00:00Z"]).exact_matches = [] →
        (collectMatches ["2025-07-15T14:00:00Z"]
          ["2025-07-15T14:00:00Z", "2025-07-17T09:00:00Z"]).same_day_matches = [] →
        (collectMatches ["2025-07-15T14:00:00Z"]
          ["2025-07-15T14:00:00Z", "2025-07-17T09:00:00Z"]).close_matches ≠ [] →
        ∃ d, ("2025-07-15T14:00:00Z", d) ∈ (collectMatches ["2025-07-15T14:00:00Z"]
          ["2025-07-15T14:00:00Z", "2025-07-17T09:00:00Z"]).close_matches)
    ∧ ((collectMatches ["2025-07-15T14:00:00Z"]
          ["2025-07-15T14:00:00Z", "2025-07-17T09:00:00Z"]).exact_matches = [] →
        (collectMatches ["2025-07-15T14:00:00Z"]
          ["2025-07-15T14:00:00Z", "2025-07-17T09:00:00Z"]).same_day_matches = [] →
        (collectMatches ["2025-07-15T14:00:00Z"]
          ["2025-07-15T14:00:00Z", "2025-07-17T09:00:00Z"]).close_matches = [] →
        proposedTimes ["2025-07-15T14:00:00Z"]
          ["2025-07-15T14:00:00Z", "2025-07-17T09:00:00Z"]
          = ["2025-07-15T14:00:00Z", "2025-07-17T09:00:00Z"].take 3)) :=
  ⟨by decide, tier_precedence_global _ _ _ (by decide)⟩

/-- C2: the proposal always has at most five entries, and it is empty
exactly when the interviewer list is empty (so the call never fails and is
non-empty whenever some interviewer slot exists). -/
theorem proposal_bounded_and_empty_iff (cands ivs : List String) :
    (proposedTimes cands ivs).length ≤ 5
  ∧ (proposedTimes cands ivs = [] ↔ ivs = []) := by
  constructor
  · unfold proposedTimes
    simp only [List.length_take]
    omega
  · constructor
    · intro h
      by_contra hivs
      by_cases h1 : (collectMatches cands ivs).exact_matches = []
      · by_cases h2 : (collectMatches cands ivs).same_day_matches = []
        · by_cases h3 : (collectMatches cands ivs).close_matches = []
          · rw [proposedTimes_fallback cands ivs h1 h2 h3] at h
            rcases List.take_eq_nil_iff.1 h with h' | h' <;> simp_all
          · rw [proposedTimes_close cands ivs h1 h2 h3] at h
            rw [List.map_eq_nil_iff] at h
            rcases List.take_eq_nil_iff.1 h with h' | h'
            · simp_all
            · exact h3 (List.Perm.eq_nil ((sortPairs_perm _).symm.trans (by rw [h'])))
        · rw [proposedTimes_same_day cands ivs h1 h2] at h
          rw [List.map_eq_nil_iff] at h
          rcases List.take_eq_nil_iff.1 h with h' | h'
          · simp_all
          · exact h2 (List.Perm.eq_nil ((sortPairs_perm _).symm.trans (by rw [h'])))
      · rw [proposedTimes_exact cands ivs h1] at h
        rw [List.map_eq_nil_iff] at h
        rcases List.take_eq_nil_iff.1 h with h' | h'
        · simp_all
        · exact h1 (List.Perm.eq_nil ((sortPairs_perm _).symm.trans (by rw [h'])))
    · intro h
      subst h
      rw [proposedTimes_fallback _ _ (by rw [collectMatches_nil_right])
        (by rw [collectMatches_nil_right]) (by rw [collectMatches_nil_right])]
      rfl

/-- C7: every proposed meeting time of the returned result is a member of
the returned interviewer availability list. -/
theorem proposal_subset_interviewer (cands ivs : List String) (t : String)
    (ht : t ∈ (check_real_calendar cands ivs).proposed_meeting_times) :
    t ∈ (check_real_calendar cands ivs).interviewer_times := by
  have ht' : t ∈ proposedTimes cands ivs := ht
  show t ∈ ivs
  by_cases h1 : (collectMatches cands ivs).exact_matches = []
  · by_cases h2 : (collectMatches cands ivs).same_day_matches = []
    · by_cases h3 : (collectMatches cands ivs).close_matches = []
      · rw [proposedTimes_fallback cands ivs h1 h2 h3] at ht'
        exact List.take_subset _ _ ht'
      · rw [proposedTimes_close cands ivs h1 h2 h3] at ht'
        obtain ⟨d, hd⟩ := mem_sort_take_map ht'
        exact (collectMatches_fst_mem cands ivs).2.2 (t, d) hd
    · rw [proposedTimes_same_day cands ivs h1 h2] at ht'
      obtain ⟨d, hd⟩ := mem_sort_take_map ht'
      exact (collectMatches_fst_mem cands ivs).2.1 (t, d) hd
  · rw [proposedTimes_exact cands ivs h1] at ht'
    obtain ⟨d, hd⟩ := mem_sort_take_map ht'
    exact (collectMatches_fst_mem cands ivs).1 (t, d) hd

/-- Witness for `proposal_subset_interviewer`. -/
theorem proposal_subset_interviewer_witness :
    "2025-07-16T10:00:00Z" ∈ (check_real_calendar ["2025-07-16T11:30:00Z"]
        ["2025-07-16T10:00:00Z", "2025-07-18T15:00:00Z"]).proposed_meeting_times
  ∧ "2025-07-16T10:00:00Z" ∈ (check_real_calendar ["2025-07-16T11:30:00Z"]
        ["2025-07-16T10:00:00Z", "2025-07-18T15:00:00Z"]).interviewer_times :=
  ⟨by decide, proposal_subset_interviewer _ _ _ (by decide)⟩

/-- C8: with an empty candidate list every tier is empty, so the proposal
is the first three interviewer entries in their original order. -/
theorem empty_candidates_fallback (ivs : List String) (_hne : ivs ≠ []) :
    (check_real_calendar [] ivs).proposed_meeting_times = ivs.take 3 :=
  proposedTimes_fallback [] ivs rfl rfl rfl

/-- Witness for `empty_candidates_fallback`. -/
theorem empty_candidates_fallback_witness :
    (["2025-07-17T09:00:00Z", "2025-07-17T14:00:00Z", "2025-07-18T15:00:00Z",
        "2025-07-18T20:00:00Z"] : List String) ≠ []
  ∧ (check_real_calendar []
        ["2025-07-17T09:00:00Z", "2025-07-17T14:00:00Z", "2025-07-18T15:00:00Z",
          "2025-07-18T20:00:00Z"]).proposed_meeting_times
      = ["2025-07-17T09:00:00Z", "2025-07-17T14:00:00Z", "2025-07-18T15:00:00Z",
          "2025-07-18T20:00:00Z"].take 3 :=
  ⟨by decide, empty_candidates_fallback _ (by decide)⟩

/-- C5: the tier classification agrees with the specified thresholds (one,
three and twenty-four hours, with the same-day requirement for the first
two and strict precedence), and the spec §8 SAME_DAY example evaluates to
exactly the stated proposal. -/
theorem tier_classification_and_example :
    (∀ c i : PyDateTime,
        (classify c i = some Tier.tExact ↔
          sameDayB c i = true ∧ diffMicros c i ≤ 3600000000)
      ∧ (classify c i = some Tier.tSameDay ↔
          sameDayB c i = true ∧ diffMicros c i ≤ 10800000000
            ∧ ¬(sameDayB c i = true ∧ diffMicros c i ≤ 3600000000))
      ∧ (classify c i = some Tier.tClose ↔
          diffMicros c i ≤ 86400000000
            ∧ ¬(sameDayB c i = true ∧ diffMicros c i ≤ 3600000000)
            ∧ ¬(sameDayB c i = true ∧ diffMicros c i ≤ 10800000000))
      ∧ (classify c i = none ↔ 86400000000 < diffMicros c i))
  ∧ proposedTimes ["2025-07-15T08:00:00Z"]
        ["2025-07-15T10:30:00Z", "2025-07-20T09:00:00Z"]
      = ["2025-07-15T10:30:00Z"] := by
  refine ⟨fun c i => ⟨?_, ?_, ?_, ?_⟩, by decide⟩ <;>
    (unfold classify; split_ifs with hA hB hC <;> (try simp_all) <;> omega)

/-- C3 counterexample: the code performs no deduplication.  Two candidate
times (10:00 and 10:30) are each within one hour of the single interviewer
slot 10:15, so that slot enters `exact_matches` twice and the returned
proposal repeats it. -/
theorem proposal_duplicate_counterexample :
    proposedTimes ["2025-07-15T10:00:00Z", "2025-07-15T10:30:00Z"]
        ["2025-07-15T10:15:00Z"]
      = ["2025-07-15T10:15:00Z", "2025-07-15T10:15:00Z"]
  ∧ ¬ (proposedTimes ["2025-07-15T10:00:00Z", "2025-07-15T10:30:00Z"]
        ["2025-07-15T10:15:00Z"]).Nodup := by
  exact ⟨by decide, by decide⟩

theorem nodup_sort_take_map {L : List (String × Nat)} {ivs : List String}
    (hsub : L.map Prod.fst <+ ivs) (h2 : ivs.Nodup) :
    (((sortPairs L).take 3).map Prod.fst).Nodup := by
  have hL : (L.map Prod.fst).Nodup := hsub.nodup h2
  have hperm : (sortPairs L).map Prod.fst ~ L.map Prod.fst :=
    (sortPairs_perm L).map _
  have hns : ((sortPairs L).map Prod.fst).Nodup := hperm.nodup_iff.2 hL
  rw [List.map_take]
  exact (List.take_sublist _ _).nodup hns

/-- C3 amended: no deduplication is performed, so the proposal can repeat
an interviewer entry as soon as two qualifying pairs share it; but when at
most one candidate time is supplied and the interviewer entries are
pairwise distinct, every interviewer entry yields at most one qualifying
pair and the proposal is duplicate-free. -/
theorem proposal_nodup_single_candidate (cands ivs : List String)
    (h1 : cands.length ≤ 1) (h2 : ivs.Nodup) :
    (proposedTimes cands ivs).Nodup := by
  rcases cands with _ | ⟨c, rest⟩
  · rw [proposedTimes_fallback [] ivs rfl rfl rfl]
    exact (List.take_sublist _ _).nodup h2
  · have hrest : rest = [] := by
      cases rest with
      | nil => rfl
      | cons x xs => simp at h1
    subst hrest
    cases hp : pyParse c with
    | none =>
      have hml : collectMatches [c] ivs = ⟨[], [], []⟩ := by
        simp [collectMatches, hp]
      rw [proposedTimes_fallback [c] ivs (by rw [hml]) (by rw [hml]) (by rw [hml])]
      exact (List.take_sublist _ _).nodup h2
    | some cdt =>
      have hml : collectMatches [c] ivs
          = ⟨(innerLoop cdt ivs).exact_matches, (innerLoop cdt ivs).same_day_matches,
              (innerLoop cdt ivs).close_matches⟩ := by
        simp [collectMatches, hp]
      obtain ⟨hs1, hs2, hs3⟩ := innerLoop_fst_sublist cdt ivs
      by_cases hne1 : (collectMatches [c] ivs).exact_matches = []
      · by_cases hne2 : (collectMatches [c] ivs).same_day_matches = []
        · by_cases hne3 : (collectMatches [c] ivs).close_matches = []
          · rw [proposedTimes_fallback [c] ivs hne1 hne2 hne3]
            exact (List.take_sublist _ _).nodup h2
          · rw [proposedTimes_close [c] ivs hne1 hne2 hne3, hml]
            exact nodup_sort_take_map hs3 h2
        · rw [proposedTimes_same_day [c] ivs hne1 hne2, hml]
          exact nodup_sort_take_map hs2 h2
      · rw [proposedTimes_exact [c] ivs hne1, hml]
        exact nodup_sort_take_map hs1 h2

/-- Witness for `proposal_nodup_single_candidate`. -/
theorem proposal_nodup_single_candidate_witness :
    (["2025-07-16T09:00:00Z"] : List String).length ≤ 1
  ∧ (["2025-07-16T10:00:00Z", "2025-07-16T11:00:00Z"] : List String).Nodup
  ∧ (proposedTimes ["2025-07-16T09:00:00Z"]
        ["2025-07-16T10:00:00Z", "2025-07-16T11:00:00Z"]).Nodup :=
  ⟨by decide, by decide,
    proposal_nodup_single_candidate _ _ (by decide) (by decide)⟩

/-- C6 counterexample: with the two candidates 12:30 and 10:30 and the
interviewer list [10:00, 12:00], the two EXACT pairs have the same
difference (30 minutes), yet the proposal lists 12:00 before 10:00 —
discovery order (candidate-outer iteration), not the original
interviewer-list order, breaks the tie. -/
theorem tie_order_counterexample :
    (collectMatches ["2025-07-15T12:30:00Z", "2025-07-15T10:30:00Z"]
        ["2025-07-15T10:00:00Z", "2025-07-15T12:00:00Z"]).exact_matches
      = [("2025-07-15T12:00:00Z", 1800000000), ("2025-07-15T10:00:00Z", 1800000000)]
  ∧ proposedTimes ["2025-07-15T12:30:00Z", "2025-07-15T10:30:00Z"]
        ["2025-07-15T10:00:00Z", "2025-07-15T12:00:00Z"]
      = ["2025-07-15T12:00:00Z", "2025-07-15T10:00:00Z"]
  ∧ proposedTimes ["2025-07-15T12:30:00Z", "2025-07-15T10:30:00Z"]
        ["2025-07-15T10:00:00Z", "2025-07-15T12:00:00Z"]
      ≠ ["2025-07-15T10:00:00Z", "2025-07-15T12:00:00Z"] := by
  refine ⟨by decide, by decide, by decide⟩

/-- C6 amended: within the chosen tier the proposal is sorted ascending by
stored difference, and equal-difference entries keep the order in which the
qualifying pairs were discovered (candidates outer, interviewer entries
inner) — which coincides with interviewer-list order only for a single
candidate time; the proposal is the first three entries of that sorted
list. -/
theorem chosen_tier_sorted_stable (cands ivs : List String) :
    List.Pairwise (fun a b : String × Nat => a.2 ≤ b.2)
      (sortPairs (chosenPairs cands ivs))
  ∧ (∀ d : Nat, (sortPairs (chosenPairs cands ivs)).filter (fun p => p.2 == d)
      = (chosenPairs cands ivs).filter (fun p => p.2 == d))
  ∧ (chosenPairs cands ivs ≠ [] →
      proposedTimes cands ivs
        = ((sortPairs (chosenPairs cands ivs)).take 3).map Prod.fst) := by
  refine ⟨sortPairs_sorted _, fun d => sortPairs_filter_key _ d, fun hne => ?_⟩
  by_cases hn1 : (collectMatches cands ivs).exact_matches = []
  · by_cases hn2 : (collectMatches cands ivs).same_day_matches = []
    · have hch : chosenPairs cands ivs = (collectMatches cands ivs).close_matches := by
        simp [chosenPairs, hn1, hn2]
      rw [hch] at hne ⊢
      exact proposedTimes_close cands ivs hn1 hn2 hne
    · have hch : chosenPairs cands ivs = (collectMatches cands ivs).same_day_matches := by
        simp [chosenPairs, hn1, hn2]
      rw [hch]
      exact proposedTimes_same_day cands ivs hn1 hn2
  · have hch : chosenPairs cands ivs = (collectMatches cands ivs).exact_matches := by
      simp [chosenPairs, hn1]
    rw [hch]
    exact proposedTimes_exact cands ivs hn1

/-- Witness for `proposal_bounded_and_empty_iff`. -/
theorem proposal_bounded_and_empty_iff_witness :
    (proposedTimes ["2025-07-17T10:00:00Z"]
        ["2025-07-17T11:00:00Z", "2025-07-17T12:00:00Z"]).length ≤ 5
  ∧ (proposedTimes ["2025-07-17T10:00:00Z"]
        ["2025-07-17T11:00:00Z", "2025-07-17T12:00:00Z"] = []
      ↔ (["2025-07-17T11:00:00Z", "2025-07-17T12:00:00Z"] : List String) = []) :=
  proposal_bounded_and_empty_iff ["2025-07-17T10:00:00Z"]
    ["2025-07-17T11:00:00Z", "2025-07-17T12:00:00Z"]

/-- Witness for `chosen_tier_sorted_stable`. -/
theorem chosen_tier_sorted_stable_witness :
    List.Pairwise (fun a b : String × Nat => a.2 ≤ b.2)
      (sortPairs (chosenPairs ["2025-07-19T10:20:00Z"] ["2025-07-19T09:00:00Z"]))
  ∧ (∀ d : Nat, (sortPairs (chosenPairs ["2025-07-19T10:20:00Z"]
          ["2025-07-19T09:00:00Z"])).filter (fun p => p.2 == d)
      = (chosenPairs ["2025-07-19T10:20:00Z"]
          ["2025-07-19T09:00:00Z"]).filter (fun p => p.2 == d))
  ∧ (chosenPairs ["2025-07-19T10:20:00Z"] ["2025-07-19T09:00:00Z"] ≠ [] →
      proposedTimes ["2025-07-19T10:20:00Z"] ["2025-07-19T09:00:00Z"]
        = ((sortPairs (chosenPairs ["2025-07-19T10:20:00Z"]
            ["2025-07-19T09:00:00Z"])).take 3).map Prod.fst) :=
  chosen_tier_sorted_stable ["2025-07-19T10:20:00Z"] ["2025-07-19T09:00:00Z"]

/-- C4 counterexample: a malformed candidate entry is not dropped per item.
The display loop's unguarded `fromisoformat` raises, the function-level
`except` takes over, and the whole result — interviewer sequence included —
is replaced by the clock-derived mock times, none of which equals the
valid-subset result computed by the matching core. -/
theorem malformed_candidate_diverts :
    (check_real_calendar_full ⟨2025, 7, 14, 9, 30, 0, 0, none⟩
        ["not-a-time", "2025-07-15T14:00:00Z"]
        ["2025-07-15T14:00:00Z"]).proposed_meeting_times
      = ["2025-07-15T19:30:00Z", "2025-07-16T19:30:00Z", "2025-07-17T19:30:00Z"]
  ∧ (check_real_calendar_full ⟨2025, 7, 14, 9, 30, 0, 0, none⟩
        ["2025-07-15T14:00:00Z"] ["2025-07-15T14:00:00Z"]).proposed_meeting_times
      = ["2025-07-15T14:00:00Z"]
  ∧ (check_real_calendar_full ⟨2025, 7, 14, 9, 30, 0, 0, none⟩
        ["not-a-time", "2025-07-15T14:00:00Z"]
        ["2025-07-15T14:00:00Z"]).proposed_meeting_times
      ≠ (check_real_calendar_full ⟨2025, 7, 14, 9, 30, 0, 0, none⟩
        ["2025-07-15T14:00:00Z"] ["2025-07-15T14:00:00Z"]).proposed_meeting_times
  ∧ (check_real_calendar_full ⟨2025, 7, 14, 9, 30, 0, 0, none⟩
        ["not-a-time", "2025-07-15T14:00:00Z"]
        ["2025-07-15T14:00:00Z"]).interviewer_times ≠ ["2025-07-15T14:00:00Z"] := by
  refine ⟨by decide, by decide, by decide, by decide⟩

/-- C4 amended: the call always returns normally, and its result is the
matching-core result exactly when every candidate entry and each of the
first five interviewer entries parses; any display-loop parse failure
instead yields the mock fallback, with the clock-derived weekday times as
the interviewer sequence and their first three as the proposal. -/
theorem display_guard_characterization (now : PyDateTimeTz)
    (cands ivs : List String) :
    (displayLoopsSucceed cands ivs = true →
      check_real_calendar_full now cands ivs = check_real_calendar cands ivs)
  ∧ (displayLoopsSucceed cands ivs = false →
      check_real_calendar_full now cands ivs
        = { type := "available_slots", candidate_times := cands,
            interviewer_times := mockTimes now,
            proposed_meeting_times := (mockTimes now).take 3 }) := by
  constructor <;> intro h <;> simp [check_real_calendar_full, h]

/-- Witness for `display_guard_characterization`. -/
theorem display_guard_characterization_witness :
    (displayLoopsSucceed ["2025-07-21T09:00:00Z"] ["2025-07-21T08:30:00Z"] = true →
      check_real_calendar_full ⟨2025, 7, 20, 12, 0, 0, 0, none⟩
          ["2025-07-21T09:00:00Z"] ["2025-07-21T08:30:00Z"]
        = check_real_calendar ["2025-07-21T09:00:00Z"] ["2025-07-21T08:30:00Z"])
  ∧ (displayLoopsSucceed ["2025-07-21T09:00:00Z"] ["2025-07-21T08:30:00Z"] = false →
      check_real_calendar_full ⟨2025, 7, 20, 12, 0, 0, 0, none⟩
          ["2025-07-21T09:00:00Z"] ["2025-07-21T08:30:00Z"]
        = { type := "available_slots", candidate_times := ["2025-07-21T09:00:00Z"],
            interviewer_times := mockTimes ⟨2025, 7, 20, 12, 0, 0, 0, none⟩,
            proposed_meeting_times := (mockTimes ⟨2025, 7, 20, 12, 0, 0, 0, none⟩).take 3 }) :=
  display_guard_characterization ⟨2025, 7, 20, 12, 0, 0, 0, none⟩
    ["2025-07-21T09:00:00Z"] ["2025-07-21T08:30:00Z"]

theorem addOneHourTz_fields (dt : PyDateTimeTz) :
    (addOneHourTz dt).minute = dt.minute ∧ (addOneHourTz dt).second = dt.second
      ∧ (addOneHourTz dt).microsecond = dt.microsecond := by
  unfold addOneHourTz
  split
  · exact ⟨rfl, rfl, rfl⟩
  · split
    · exact ⟨rfl, rfl, rfl⟩
    · split
      · exact ⟨rfl, rfl, rfl⟩
      · exact ⟨rfl, rfl, rfl⟩

/-- C9 counterexample: the last half hour of the datetime range is
parseable but is not rounded.  At `9999-12-31T23:45:00Z` the rounding
addition overflows `datetime.max`, the `except` catches the
`OverflowError`, and the input comes back unchanged with minute 45. -/
theorem overflow_rounding_counterexample :
    fromisoformat (pyReplaceZ "9999-12-31T23:45:00Z")
      = some ⟨9999, 12, 31, 23, 45, 0, 0, some 0⟩
  ∧ normalize_time_to_hour_boundary "9999-12-31T23:45:00Z"
      = "9999-12-31T23:45:00Z"
  ∧ (fromisoformat (pyReplaceZ
        (normalize_time_to_hour_boundary "9999-12-31T23:45:00Z"))).map
          PyDateTimeTz.minute = some 45 := by
  refine ⟨by decide, by decide, by decide⟩

/-- C9 amended: on every input `fromisoformat` parses, the normalizer
returns the serialization of the datetime rounded to the nearest hour —
zero minute, second and microsecond, the hour truncation below minute 30
and the truncation plus one hour at or past it — except when the input
lies at 9999-12-31T23:30 or later, where the round-up overflows
`datetime.max` and the caught `OverflowError` leaves the input string
unchanged. -/
theorem normalize_rounds_to_nearest_hour (s : String) (dt : PyDateTimeTz)
    (h : fromisoformat (pyReplaceZ s) = some dt) :
    ((dt.year = 9999 ∧ dt.month = 12 ∧ dt.day = 31 ∧ dt.hour = 23 ∧ 30 ≤ dt.minute) →
      normalize_time_to_hour_boundary s = s)
  ∧ (¬(dt.year = 9999 ∧ dt.month = 12 ∧ dt.day = 31 ∧ dt.hour = 23 ∧ 30 ≤ dt.minute) →
      normalize_time_to_hour_boundary s = pyIsoformatZ (roundToNearestHourTz dt)
      ∧ (roundToNearestHourTz dt).minute = 0
      ∧ (roundToNearestHourTz dt).second = 0
      ∧ (roundToNearestHourTz dt).microsecond = 0
      ∧ (dt.minute < 30 → roundToNearestHourTz dt = truncTz dt)
      ∧ (30 ≤ dt.minute → roundToNearestHourTz dt = addOneHourTz (truncTz dt))) := by
  obtain ⟨hm, hs2, hu⟩ := addOneHourTz_fields (truncTz dt)
  have hn : normalize_time_to_hour_boundary s
      = (if 30 ≤ dt.minute then
          (if rolloverOverflows dt then s else pyIsoformatZ (addOneHourTz (truncTz dt)))
        else pyIsoformatZ (truncTz dt)) := by
    unfold normalize_time_to_hour_boundary
    rw [h]
  constructor
  · intro hc
    obtain ⟨hy, hmo, hd, hh, hm30⟩ := hc
    rw [hn, if_pos hm30, if_pos (by simp [rolloverOverflows, hy, hmo, hd, hh])]
  · intro hc
    by_cases hm30 : 30 ≤ dt.minute
    · have hov : rolloverOverflows dt = false := by
        simp only [rolloverOverflows]
        by_contra hb
        simp only [Bool.not_eq_false, Bool.and_eq_true, beq_iff_eq] at hb
        exact hc ⟨hb.1.1.1, hb.1.1.2, hb.1.2, hb.2, hm30⟩
      refine ⟨?_, ?_, ?_, ?_, fun hlt => absurd hm30 (by omega), fun _ => ?_⟩
      · rw [hn, if_pos hm30, if_neg (by simp [hov]), roundToNearestHourTz, if_pos hm30]
      · rw [roundToNearestHourTz, if_pos hm30, hm]; rfl
      · rw [roundToNearestHourTz, if_pos hm30, hs2]; rfl
      · rw [roundToNearestHourTz, if_pos hm30, hu]; rfl
      · rw [roundToNearestHourTz, if_pos hm30]
    · refine ⟨?_, ?_, ?_, ?_, fun _ => ?_, fun hge => absurd hge hm30⟩
      · rw [hn, if_neg hm30, roundToNearestHourTz, if_neg hm30]
      · rw [roundToNearestHourTz, if_neg hm30]; rfl
      · rw [roundToNearestHourTz, if_neg hm30]; rfl
      · rw [roundToNearestHourTz, if_neg hm30]; rfl
      · rw [roundToNearestHourTz, if_neg hm30]

/-- Witness for `normalize_rounds_to_nearest_hour` at an input whose
rounding crosses a day boundary. -/
theorem normalize_rounds_to_nearest_hour_witness :
    fromisoformat (pyReplaceZ "2025-07-03T23:45:10Z")
      = some ⟨2025, 7, 3, 23, 45, 10, 0, some 0⟩
  ∧ ((((2025 : Nat) = 9999 ∧ (7 : Nat) = 12 ∧ (3 : Nat) = 31 ∧ (23 : Nat) = 23
        ∧ (30 : Nat) ≤ 45) →
      normalize_time_to_hour_boundary "2025-07-03T23:45:10Z" = "2025-07-03T23:45:10Z")
    ∧ (¬((2025 : Nat) = 9999 ∧ (7 : Nat) = 12 ∧ (3 : Nat) = 31 ∧ (23 : Nat) = 23
        ∧ (30 : Nat) ≤ 45) →
      normalize_time_to_hour_boundary "2025-07-03T23:45:10Z"
          = pyIsoformatZ (roundToNearestHourTz ⟨2025, 7, 3, 23, 45, 10, 0, some 0⟩)
      ∧ (roundToNearestHourTz ⟨2025, 7, 3, 23, 45, 10, 0, some 0⟩).minute = 0
      ∧ (roundToNearestHourTz ⟨2025, 7, 3, 23, 45, 10, 0, some 0⟩).second = 0
      ∧ (roundToNearestHourTz ⟨2025, 7, 3, 23, 45, 10, 0, some 0⟩).microsecond = 0
      ∧ ((⟨2025, 7, 3, 23, 45, 10, 0, some 0⟩ : PyDateTimeTz).minute < 30 →
          roundToNearestHourTz ⟨2025, 7, 3, 23, 45, 10, 0, some 0⟩
            = truncTz ⟨2025, 7, 3, 23, 45, 10, 0, some 0⟩)
      ∧ (30 ≤ (⟨2025, 7, 3, 23, 45, 10, 0, some 0⟩ : PyDateTimeTz).minute →
          roundToNearestHourTz ⟨2025, 7, 3, 23, 45, 10, 0, some 0⟩
            = addOneHourTz (truncTz ⟨2025, 7, 3, 23, 45, 10, 0, some 0⟩)))) :=
  ⟨by decide,
    normalize_rounds_to_nearest_hour "2025-07-03T23:45:10Z"
      ⟨2025, 7, 3, 23, 45, 10, 0, some 0⟩ (by decide)⟩

/-- C10: `normalize_time_to_hour_boundary` is total; on every input string
that `fromisoformat` cannot parse (after the `Z` replacement), the caught
exception makes the function return the input unchanged. -/
theorem normalize_unparseable_identity (s : String)
    (h : fromisoformat (pyReplaceZ s) = none) :
    normalize_time_to_hour_boundary s = s := by
  unfold normalize_time_to_hour_boundary
  rw [h]

/-- Witness for `normalize_unparseable_identity`. -/
theorem normalize_unparseable_identity_witness :
    fromisoformat (pyReplaceZ "next Tuesday at noon") = none
  ∧ normalize_time_to_hour_boundary "next Tuesday at noon"
      = "next Tuesday at noon" :=
  ⟨by decide, normalize_unparseable_identity "next Tuesday at noon" (by decide)⟩
